import Mathlib

/-!
Verification of the pairs-trading simulation engine of the
statistical-arbitrage repository: a shallow embedding in Lean 4 of
`src/signals.py`, `src/cointegration.py` (repository root),
`src/backtester.py` and the profit-factor metric of `src/analyzer.py`,
together with theorems about the engine's invariants and the leaf
functions.  Prices, spreads and capital are embedded as rationals;
dates as naturals; the third-party numerical routines the code calls
(statsmodels' `adfuller`, numpy's `std` and `lstsq`) are parameters of
the embedding, since their code is not part of the repository.
-/

set_option autoImplicit false

namespace StatArb

/-- Asset identifiers (the strings of `config['pairs']`). -/
abbrev Asset := String

/-- A key of the open-positions dict: the ordered 2-tuple `(pair1, pair2)`. -/
abbrev PairKey := Asset × Asset

/-- Date at day granularity (`df['timestamp'].dt.date`), embedded as an index. -/
abbrev Date := ℕ

/-! ## signals.py -/

/-- The `Signal` enum of `src/signals.py`. -/
inductive Signal where
  | BUY
  | SELL
  | CLOSE
  | HOLD
deriving DecidableEq, Repr

/-- The dict returned by `SignalGenerator.generate_signal`. -/
structure SignalResult where
  signal : Signal
  zscore : ℚ
  confidence : ℚ
deriving DecidableEq, Repr

/-- `SignalGenerator.generate_signal` (src/signals.py lines 27-72).
`entry_threshold` and `exit_threshold` are the constructor fields;
`position_open` is the truthiness of the `position_open` argument
(the engine passes the open `Trade` object or `None`). -/
def generate_signal (entry_threshold exit_threshold : ℚ) (zscore : ℚ)
    (position_open : Bool) : SignalResult :=
  let sc : Signal × ℚ :=
    if position_open = true ∧ |zscore| < exit_threshold then
      (Signal.CLOSE, 1 - |zscore| / exit_threshold)
    else if position_open = false then
      if zscore < -entry_threshold then
        (Signal.BUY, (|zscore| - entry_threshold) / entry_threshold)
      else if entry_threshold < zscore then
        (Signal.SELL, (|zscore| - entry_threshold) / entry_threshold)
      else
        (Signal.HOLD, 0)
    else
      (Signal.HOLD, 0)
  ⟨sc.1, zscore, min sc.2 1⟩

/-! ## cointegration.py: the z-score -/

/-- `CointegrationTester.calculate_zscore` (src/cointegration.py lines 197-221).
The Bool records whether the zero-std warning was emitted
(`logger.warning("Spread std is 0, ...")`); the engine reads only the value. -/
def calculate_zscore (current_spread spread_mean spread_std : ℚ) : ℚ × Bool :=
  if spread_std = 0 then
    (0, true)
  else
    ((current_spread - spread_mean) / spread_std, false)

/-! ## backtester.py: the Trade record -/

/-- The two values of `Trade.side` (the strings `'LONG'` / `'SHORT'`). -/
inductive Side where
  | LONG
  | SHORT
deriving DecidableEq, Repr

/-- The `Trade` class of `src/backtester.py`: entry fields set by
`__init__`, exit fields `None` until `close` is called. -/
structure Trade where
  trade_id : ℕ
  pair : PairKey
  side : Side
  entry_time : Date
  entry_price : ℚ
  entry_quantity : ℚ
  hedge_ratio : ℚ
  exit_time : Option Date
  exit_price : Option ℚ
  exit_quantity : Option ℚ
  gross_pnl : Option ℚ
  net_pnl : Option ℚ
  return_pct : Option ℚ
deriving DecidableEq, Repr

/-- Build a `Trade` as `Trade.__init__` does: exit fields `None`. -/
def Trade.mkOpen (trade_id : ℕ) (pair : PairKey) (side : Side)
    (entry_time : Date) (entry_price entry_quantity hedge_ratio : ℚ) : Trade :=
  ⟨trade_id, pair, side, entry_time, entry_price, entry_quantity, hedge_ratio,
    none, none, none, none, none, none⟩

/-- `Trade.close` (src/backtester.py lines 42-64). -/
def Trade.close (t : Trade) (xTime : Date) (xPrice xQty fees : ℚ) : Trade :=
  let spread_change_pct : ℚ :=
    if t.entry_price = 0 then 0
    else (xPrice - t.entry_price) / |t.entry_price|
  let gross : ℚ :=
    if t.side = Side.LONG then t.entry_quantity * spread_change_pct
    else -t.entry_quantity * spread_change_pct
  let net : ℚ := gross - fees
  { t with
      exit_time := some xTime
      exit_price := some xPrice
      exit_quantity := some xQty
      gross_pnl := some gross
      net_pnl := some net
      return_pct := some (if t.entry_quantity ≠ 0 then net / t.entry_quantity * 100 else 0) }

/-! ## analyzer.py: profit factor -/

/-- A row of the trade log as `PerformanceAnalyzer._calculate_profit_factor`
reads it: only `t['net_pnl']` is consulted. -/
structure TradeRec where
  net_pnl : ℚ
deriving DecidableEq, Repr

/-- Gross profit: `sum([t['net_pnl'] for t in trades if t['net_pnl'] > 0])`. -/
def gross_profit (trades : List TradeRec) : ℚ :=
  ((trades.filter (fun t => decide (0 < t.net_pnl))).map TradeRec.net_pnl).sum

/-- Gross loss: `abs(sum([t['net_pnl'] for t in trades if t['net_pnl'] < 0]))`. -/
def gross_loss (trades : List TradeRec) : ℚ :=
  |((trades.filter (fun t => decide (t.net_pnl < 0))).map TradeRec.net_pnl).sum|

/-- `PerformanceAnalyzer._calculate_profit_factor` (src/src/analyzer.py
lines 188-200). -/
def calculate_profit_factor (trades : List TradeRec) : ℚ :=
  if gross_loss trades = 0 then
    if 0 < gross_profit trades then gross_profit trades / (1 / 100) else 0
  else
    gross_profit trades / gross_loss trades

/-! ## cointegration.py: hedge ratio, spread, ADF, test_cointegration -/

/-- The tuple `adfuller` (statsmodels) returns:
statistic, p-value, usedlag, nobs, critical values, icbest. -/
structure AdfRaw where
  stat : ℚ
  pval : ℚ
  usedlag : ℕ
  nobs : ℕ
  critical_values : List (String × ℚ)
  icbest : ℚ
deriving DecidableEq, Repr

/-- The third-party numerical routines the repository calls.  They are
external library code (statsmodels, numpy), not code of this repository,
so the embedding takes them as parameters:
`adfuller` returns `none` when the routine raises (the exception caught
by `adf_test`'s `try/except`); `npStd` is `np.std`;
`npLstsq x1 y` is `np.linalg.lstsq(column_stack([ones, x1]), y)` returning
`(beta[0], beta[1])`, i.e. intercept and slope. -/
structure Externals where
  adfuller : List ℚ → Option AdfRaw
  npStd : List ℚ → ℚ
  npLstsq : List ℚ → List ℚ → ℚ × ℚ

/-- The dict built by `CointegrationTester.adf_test`
(src/cointegration.py lines 63-92); `none` models the `except` branch
returning `None`. -/
structure AdfResult where
  adf_statistic : ℚ
  pvalue : ℚ
  usedlag : ℕ
  nobs : ℕ
  critical_values : List (String × ℚ)
  ic_best : ℚ
deriving DecidableEq, Repr

/-- `CointegrationTester.adf_test`. -/
def adf_test (ext : Externals) (series : List ℚ) : Option AdfResult :=
  match ext.adfuller series with
  | some r => some ⟨r.stat, r.pval, r.usedlag, r.nobs, r.critical_values, r.icbest⟩
  | none => none

/-- `CointegrationTester.calculate_hedge_ratio` (src/cointegration.py
lines 21-47): OLS of price1 on `[1, price2]`, returning `beta[1]`. -/
def calculate_hedge_ratio (ext : Externals) (price1 price2 : List ℚ) : ℚ :=
  (ext.npLstsq price2 price1).2

/-- `CointegrationTester.calculate_spread` at a pair of scalar prices
(src/cointegration.py lines 49-61). -/
def calculate_spread (price1 price2 hedge_ratio : ℚ) : ℚ :=
  price1 - hedge_ratio * price2

/-- `CointegrationTester.calculate_spread` applied to aligned arrays
(the same Python function, vectorized by numpy broadcasting). -/
def calculate_spread_series (price1 price2 : List ℚ) (hedge_ratio : ℚ) : List ℚ :=
  price1.zipWith (fun p1 p2 => calculate_spread p1 p2 hedge_ratio) price2

/-- `np.mean`: arithmetic mean of a list. -/
def npMean (l : List ℚ) : ℚ := l.sum / l.length

/-- The dict returned by `CointegrationTester.test_cointegration`
(src/cointegration.py lines 94-157).  A key absent from one of the two
return dicts is an `Option` that is `none` on the path that omits it. -/
structure CointResult where
  cointegrated : Bool
  adf_pvalue : Option ℚ
  adf_statistic : Option ℚ
  hedge_ratio : ℚ
  spread_mean : Option ℚ
  spread_std : Option ℚ
  lookback_periods : Option ℕ
  critical_values : Option (List (String × ℚ))
  error : Option String

/-- The last `lookback` elements of a list (`price1[-lookback:]`). -/
def lastN (l : List ℚ) (n : ℕ) : List ℚ := l.drop (l.length - n)

/-- `CointegrationTester.test_cointegration` with `min_pvalue` the
constructor field and `lookback` the keyword argument (default 252). -/
def test_cointegration (ext : Externals) (min_pvalue : ℚ)
    (price1 price2 : List ℚ) (lookback : ℕ) : CointResult :=
  let price1_test := if lookback < price1.length then lastN price1 lookback else price1
  let price2_test := if lookback < price1.length then lastN price2 lookback else price2
  let hedge_ratio := calculate_hedge_ratio ext price1_test price2_test
  let spread := calculate_spread_series price1_test price2_test hedge_ratio
  match adf_test ext spread with
  | none =>
      ⟨false, none, none, hedge_ratio, none, none, none, none,
        some ("ADF test failed")⟩
  | some adf_result =>
      ⟨decide (adf_result.pvalue < min_pvalue),
        some adf_result.pvalue, some adf_result.adf_statistic, hedge_ratio,
        some (npMean spread), some (ext.npStd spread),
        some price1_test.length, some adf_result.critical_values, none⟩

/-! ## Small dict operations (Python `dict` on assoc lists) -/

section Dict

variable {K V : Type} [DecidableEq K]

/-- `d.get(k)` / `d[k]`. -/
def dictLookup (l : List (K × V)) (k : K) : Option V :=
  (l.find? (fun p => decide (p.1 = k))).map Prod.snd

/-- `k in d`. -/
def dictContains (l : List (K × V)) (k : K) : Bool :=
  l.any (fun p => decide (p.1 = k))

/-- `d[k] = v`: replace in place when the key exists, append otherwise. -/
def dictInsert (l : List (K × V)) (k : K) (v : V) : List (K × V) :=
  if dictContains l k then l.map (fun p => if p.1 = k then (k, v) else p)
  else l ++ [(k, v)]

/-- `del d[k]`. -/
def dictErase (l : List (K × V)) (k : K) : List (K × V) :=
  l.filter (fun p => decide (p.1 ≠ k))

/-- A Python dict holds each key at most once; on the assoc list this is
key-uniqueness. -/
def keysNodup (l : List (K × V)) : Prop := (l.map Prod.fst).Nodup

end Dict

/-! ## backtester.py: the engine -/

/-- The configuration fields the engine reads from the config dict. -/
structure Config where
  starting_capital : ℚ
  risk_per_trade : ℚ
  max_position_pct : ℚ
  commission_pct : ℚ
  min_pvalue : ℚ
  entry_threshold : ℚ
  exit_threshold : ℚ
  pairs : List Asset

/-- The price data: per asset, the DataFrame's rows as (date, close)
in frame order. -/
abbrev PriceData := List (Asset × List (Date × ℚ))

/-- The mutable state of a `Backtester` during `run()`. -/
structure BtState where
  current_capital : ℚ
  equity_curve : List (Date × ℚ)
  trades : List Trade
  open_positions : List (PairKey × Trade)
  trade_id : ℕ
deriving DecidableEq, Repr

/-- The state right after `Backtester.__init__`. -/
def initState (cfg : Config) : BtState :=
  ⟨cfg.starting_capital, [], [], [], 0⟩

/-- `self.price_data[asset]`: the rows for one asset. -/
def lookupRows (pd : PriceData) (a : Asset) : Option (List (Date × ℚ)) :=
  (pd.find? (fun p => decide (p.1 = a))).map Prod.snd

/-- `Backtester._get_price_at_date` (lines 122-129): the first row whose
date matches, else `None`. -/
def get_price_at_date (pd : PriceData) (a : Asset) (d : Date) : Option ℚ :=
  match lookupRows pd a with
  | none => none
  | some rows => (rows.find? (fun r => decide (r.1 = d))).map Prod.snd

/-- `Backtester._get_common_dates` (lines 116-120): sorted ascending
intersection of every asset's date set. -/
def get_common_dates (pd : PriceData) : List Date :=
  match pd.map (fun ar => (ar.2.map Prod.fst).dedup) with
  | [] => []
  | s :: rest =>
      (rest.foldl (fun acc t => acc.filter (fun d => t.contains d)) s).insertionSort (· ≤ ·)

/-- The close prices of one asset up to and including a date
(`df[df['timestamp'].dt.date <= date]['close'].values`). -/
def historyUpTo (pd : PriceData) (a : Asset) (d : Date) : List ℚ :=
  match lookupRows pd a with
  | none => []
  | some rows => (rows.filter (fun r => decide (r.1 ≤ d))).map Prod.snd

/-- `Backtester._calculate_position_size` (lines 131-143). -/
def calculate_position_size (cfg : Config) (current_capital : ℚ) : ℚ :=
  min (current_capital * cfg.risk_per_trade)
    (current_capital * (cfg.max_position_pct / 100))

/-- `Backtester._open_trade` (lines 234-252). -/
def open_trade (cfg : Config) (pair1 pair2 : Asset) (side : Side) (date : Date)
    (spread hedge_ratio : ℚ) (st : BtState) : BtState :=
  let pair_key : PairKey := (pair1, pair2)
  let position_size := calculate_position_size cfg st.current_capital
  let trade := Trade.mkOpen st.trade_id pair_key side date spread position_size hedge_ratio
  { st with
      open_positions := dictInsert st.open_positions pair_key trade
      trade_id := st.trade_id + 1 }

/-- `Backtester._close_trade` (lines 254-270).  Python indexes
`self.open_positions[pair_key]` directly and would raise `KeyError` on a
missing key; every caller guards on the key's presence, and the `none`
branch (never reached from the engine) leaves the state unchanged. -/
def close_trade (cfg : Config) (pair1 pair2 : Asset) (date : Date)
    (exit_spread : ℚ) (st : BtState) : BtState :=
  let pair_key : PairKey := (pair1, pair2)
  match dictLookup st.open_positions pair_key with
  | none => st
  | some trade =>
      let fees := trade.entry_price * trade.entry_quantity * cfg.commission_pct
      let closed := trade.close date exit_spread trade.entry_quantity fees
      { st with
          current_capital := st.current_capital + closed.net_pnl.getD 0
          trades := st.trades ++ [closed]
          open_positions := dictErase st.open_positions pair_key }

/-- Lines 222-232 of `Backtester._process_pair`: act on the generated
signal given the position looked up for the pair (the `if/elif` chain). -/
def executeSignal (cfg : Config) (pair1 pair2 : Asset) (date : Date)
    (current_spread hedge_ratio : ℚ) (position : Option Trade) (sig : Signal)
    (st : BtState) : BtState :=
  if sig = Signal.BUY ∧ position.isNone then
    open_trade cfg pair1 pair2 Side.LONG date current_spread hedge_ratio st
  else if sig = Signal.SELL ∧ position.isNone then
    open_trade cfg pair1 pair2 Side.SHORT date current_spread hedge_ratio st
  else if sig = Signal.CLOSE ∧ position.isSome then
    close_trade cfg pair1 pair2 date current_spread st
  else
    st

/-- `Backtester._process_pair` (lines 179-232).  `current_prices` is the
per-date dict built by `run`; `run` only calls this when every configured
asset has a (truthy) price, so the `getD 0` defaults are never consulted
from the engine. -/
def process_pair (cfg : Config) (ext : Externals) (pd : PriceData)
    (pair1 pair2 : Asset) (date : Date) (current_prices : List (Asset × ℚ))
    (st : BtState) : BtState :=
  let prices1 := historyUpTo pd pair1 date
  let prices2 := historyUpTo pd pair2 date
  if prices1.length < 252 ∨ prices2.length < 252 then st
  else
    let coint_result := test_cointegration ext cfg.min_pvalue prices1 prices2 252
    if coint_result.cointegrated = false then st
    else
      let current_spread := calculate_spread
        ((dictLookup current_prices pair1).getD 0)
        ((dictLookup current_prices pair2).getD 0)
        coint_result.hedge_ratio
      let zscore := (calculate_zscore current_spread
        (coint_result.spread_mean.getD 0) (coint_result.spread_std.getD 0)).1
      let pair_key : PairKey := (pair1, pair2)
      let position := dictLookup st.open_positions pair_key
      let signal_result := generate_signal cfg.entry_threshold cfg.exit_threshold
        zscore position.isSome
      executeSignal cfg pair1 pair2 date current_spread coint_result.hedge_ratio
        position signal_result.signal st

/-- The ordered pairs the loop `for i, pair1 in enumerate(pairs): for
pair2 in pairs[i+1:]` enumerates. -/
def orderedPairs : List Asset → List (Asset × Asset)
  | [] => []
  | a :: rest => rest.map (fun b => (a, b)) ++ orderedPairs rest

/-- The per-date dict `current_prices` of `run` (lines 155-159): an asset
enters it only when its price for the date exists and is truthy (a close
of `0` fails `if price:` and counts as missing). -/
def currentPrices (cfg : Config) (pd : PriceData) (d : Date) : List (Asset × ℚ) :=
  cfg.pairs.filterMap (fun a =>
    match get_price_at_date pd a d with
    | some p => if p = 0 then none else some (a, p)
    | none => none)

/-- One iteration of `run`'s date loop (lines 153-173): build
`current_prices`, skip the whole date when any asset's price is missing,
otherwise process every ordered pair and append one equity-curve sample. -/
def runStep (cfg : Config) (ext : Externals) (pd : PriceData)
    (st : BtState) (d : Date) : BtState :=
  let current_prices := currentPrices cfg pd d
  if current_prices.length < cfg.pairs.length then st
  else
    let st1 := (orderedPairs cfg.pairs).foldl
      (fun s pq => process_pair cfg ext pd pq.1 pq.2 d current_prices s) st
    { st1 with equity_curve := st1.equity_curve ++ [(d, st1.current_capital)] }

/-- `Backtester.run` (lines 145-177) up to the results packaging: fold the
date loop over the common dates from the initial state. -/
def run (cfg : Config) (ext : Externals) (pd : PriceData) : BtState :=
  (get_common_dates pd).foldl (runStep cfg ext pd) (initState cfg)

/-- The engine's state after the first `n` simulated dates: every
reachable state of the date loop. -/
def runUpTo (cfg : Config) (ext : Externals) (pd : PriceData) (n : ℕ) : BtState :=
  ((get_common_dates pd).take n).foldl (runStep cfg ext pd) (initState cfg)

/-! ## Derived notions used by the statements -/

/-- Sum of net P&L over a trade list (each engine trade in the list is
closed, so `net_pnl` is `some`; the default is never consulted). -/
def sumNet (trades : List Trade) : ℚ :=
  (trades.map (fun t => t.net_pnl.getD 0)).sum

/-- Whether a date passes `run`'s per-date price check: every configured
asset has a recorded, truthy close for the date (the negation of the
`len(current_prices) < len(pairs)` skip). -/
def dateHasAllPrices (cfg : Config) (pd : PriceData) (d : Date) : Bool :=
  decide (¬ (currentPrices cfg pd d).length < cfg.pairs.length)

/-- The capital bookkeeping invariant of claim C2: current capital equals
starting capital plus the net P&L of every closed trade so far. -/
def capitalInvariant (start : ℚ) (st : BtState) : Prop :=
  st.current_capital = start + sumNet st.trades

/-! ## Concrete inputs for witnesses and counterexamples -/

/-- External routines for concrete runs: `adfuller` always raises. -/
def extFailing : Externals :=
  ⟨fun _ => none, fun _ => 0, fun _ _ => (0, 0)⟩

/-- A two-date, one-asset input whose second close is `0`. -/
def pdZero : PriceData := [("A", [(0, 1), (1, 0)])]

/-- A one-asset configuration over `pdZero`. -/
def cfgZero : Config :=
  ⟨1000, 2 / 100, 10, 0, 5 / 100, 2, 1 / 2, ["A"]⟩

/-- A freshly opened LONG trade with entry spread 1 and size 1. -/
def tradeLong : Trade := Trade.mkOpen 0 ("A", "B") Side.LONG 0 1 1 1

/-- A small state with one open position, for exercising the signal
dispatch at concrete inputs. -/
def stOnePos : BtState :=
  ⟨1000, [], [], [(("A", "B"), tradeLong)], 1⟩

/-! ## Theorems -/

/-- C5: for every entry spread price, side and position size, opening a
Position and closing it at the same spread price with zero commission
fees yields a net P&L of exactly 0, and capital is unchanged by the
round trip. -/
theorem C5_round_trip_zero_pnl (tid : ℕ) (key : PairKey) (side : Side)
    (d d2 : Date) (entry_price qty hr cap : ℚ) :
    ((Trade.mkOpen tid key side d entry_price qty hr).close d2 entry_price qty 0).net_pnl
      = some 0
    ∧ cap + ((Trade.mkOpen tid key side d entry_price qty hr).close d2 entry_price qty 0).net_pnl.getD 0
      = cap := by
  have h : ((Trade.mkOpen tid key side d entry_price qty hr).close d2 entry_price qty 0).net_pnl
      = some 0 := by
    simp only [Trade.mkOpen, Trade.close]
    split_ifs <;> simp
  exact ⟨h, by rw [h]; simp⟩

/-- C7: `calculate_zscore` returns `(current_spread − mean) / std` and no
warning when `std ≠ 0` (so the z-score of the mean itself is 0), and
returns exactly 0 with the zero-std condition flagged when `std = 0`. -/
theorem C7_zscore_definition :
    (∀ cs m s : ℚ, s ≠ 0 →
      calculate_zscore cs m s = ((cs - m) / s, false)
      ∧ calculate_zscore m m s = (0, false))
    ∧ (∀ cs m : ℚ, calculate_zscore cs m 0 = (0, true)) := by
  constructor
  · intro cs m s hs
    constructor <;> simp [calculate_zscore, hs]
  · intro cs m
    simp [calculate_zscore]

/-- Witness for C7 at concrete inputs with nonzero std. -/
theorem C7_zscore_definition_witness :
    calculate_zscore 3 1 2 = ((3 - 1) / 2, false)
    ∧ calculate_zscore 1 1 2 = (0, false) :=
  C7_zscore_definition.1 3 1 2 (by norm_num)

/-- C9: the profit factor is gross profit over gross loss when the loss
is nonzero, `gross_profit / 0.01` when the loss is zero and the profit
positive, and 0 otherwise; in particular 100/0 ↦ 10000 and 0/0 ↦ 0. -/
theorem C9_profit_factor :
    (∀ trades : List TradeRec,
      calculate_profit_factor trades =
        if gross_loss trades = 0 then
          if 0 < gross_profit trades then gross_profit trades / (1 / 100) else 0
        else gross_profit trades / gross_loss trades)
    ∧ calculate_profit_factor [TradeRec.mk 100] = 10000
    ∧ calculate_profit_factor [TradeRec.mk 0] = 0 := by
  refine ⟨fun _ => rfl, ?_, ?_⟩ <;>
    norm_num [calculate_profit_factor, gross_profit, gross_loss]

/-- C4 as stated is false: a closed trade's net P&L subtracts fees, so a
LONG trade with exit spread above entry spread can still lose: entry 1,
exit 2, size 1, fees 2 gives net P&L −1. -/
theorem C4_counterexample :
    ¬ (0 < (tradeLong.close 1 2 1 2).net_pnl.getD 0 ↔ tradeLong.entry_price < 2) := by
  have h : (tradeLong.close 1 2 1 2).net_pnl.getD 0 = -1 := by
    norm_num [tradeLong, Trade.mkOpen, Trade.close]
  have he : tradeLong.entry_price = 1 := rfl
  rw [h, he]
  norm_num

/-- C4 amended: with zero fees, nonzero entry spread and positive
position size, the net P&L sign follows the side convention — LONG is
profitable iff exit spread exceeds entry spread, SHORT iff exit spread
is below entry spread. -/
theorem C4_pnl_sign_convention (t : Trade) (d : Date) (x q : ℚ)
    (hentry : t.entry_price ≠ 0) (hqty : 0 < t.entry_quantity) :
    (t.side = Side.LONG →
      (0 < (t.close d x q 0).net_pnl.getD 0 ↔ t.entry_price < x))
    ∧ (t.side = Side.SHORT →
      (0 < (t.close d x q 0).net_pnl.getD 0 ↔ x < t.entry_price)) := by
  have habs : 0 < |t.entry_price| := abs_pos.mpr hentry
  constructor
  · intro hside
    have hval : (t.close d x q 0).net_pnl.getD 0
        = t.entry_quantity * ((x - t.entry_price) / |t.entry_price|) := by
      simp [Trade.close, hside, hentry]
    rw [hval, mul_pos_iff_of_pos_left hqty, lt_div_iff₀ habs, zero_mul, sub_pos]
  · intro hside
    have hside' : t.side ≠ Side.LONG := by
      rw [hside]; intro hcontra; cases hcontra
    have hval : (t.close d x q 0).net_pnl.getD 0
        = -(t.entry_quantity * ((x - t.entry_price) / |t.entry_price|)) := by
      simp [Trade.close, hside', hentry, neg_mul]
    rw [hval, neg_pos]
    constructor
    · intro hlt
      by_contra hx
      push_neg at hx
      have hw : 0 ≤ (x - t.entry_price) / |t.entry_price| :=
        div_nonneg (sub_nonneg.mpr hx) (abs_nonneg _)
      exact absurd hlt (not_lt.mpr (mul_nonneg hqty.le hw))
    · intro hlt
      exact mul_neg_of_pos_of_neg hqty
        (div_neg_of_neg_of_pos (sub_neg.mpr hlt) habs)

/-- Witness for the amended C4 at a concrete LONG trade. -/
theorem C4_pnl_sign_convention_witness :
    (tradeLong.side = Side.LONG →
      (0 < (tradeLong.close 1 2 1 0).net_pnl.getD 0 ↔ tradeLong.entry_price < 2))
    ∧ (tradeLong.side = Side.SHORT →
      (0 < (tradeLong.close 1 2 1 0).net_pnl.getD 0 ↔ 2 < tradeLong.entry_price)) :=
  C4_pnl_sign_convention tradeLong 1 2 1
    (by norm_num [tradeLong, Trade.mkOpen]) (by norm_num [tradeLong, Trade.mkOpen])

/-- C6: for positive thresholds, `generate_signal` returns a confidence
in [0,1]; on CLOSE it is exactly `1 − |z|/exit_threshold` (linear from 1
at deviation 0 to 0 at the exit threshold), on BUY/SELL it is
`(|z| − entry_threshold)/entry_threshold` clamped at 1, and on HOLD it
is 0. -/
theorem C6_confidence_bounds (entry_threshold exit_threshold zscore : ℚ)
    (position_open : Bool) (hentry : 0 < entry_threshold) :
    (0 ≤ (generate_signal entry_threshold exit_threshold zscore position_open).confidence
      ∧ (generate_signal entry_threshold exit_threshold zscore position_open).confidence ≤ 1)
    ∧ ((generate_signal entry_threshold exit_threshold zscore position_open).signal = Signal.CLOSE →
        (generate_signal entry_threshold exit_threshold zscore position_open).confidence
          = 1 - |zscore| / exit_threshold)
    ∧ (((generate_signal entry_threshold exit_threshold zscore position_open).signal = Signal.BUY
        ∨ (generate_signal entry_threshold exit_threshold zscore position_open).signal = Signal.SELL) →
        (generate_signal entry_threshold exit_threshold zscore position_open).confidence
          = min ((|zscore| - entry_threshold) / entry_threshold) 1)
    ∧ ((generate_signal entry_threshold exit_threshold zscore position_open).signal = Signal.HOLD →
        (generate_signal entry_threshold exit_threshold zscore position_open).confidence = 0) := by
  simp only [generate_signal]
  split_ifs with h1 h2 h3 h4
  · obtain ⟨hpos, hz⟩ := h1
    have hexit : 0 < exit_threshold := lt_of_le_of_lt (abs_nonneg zscore) hz
    have hdivnn : 0 ≤ |zscore| / exit_threshold := div_nonneg (abs_nonneg _) hexit.le
    have hdivlt : |zscore| / exit_threshold < 1 := (div_lt_one hexit).mpr hz
    have hle1 : 1 - |zscore| / exit_threshold ≤ 1 := by linarith
    have hge0 : 0 ≤ 1 - |zscore| / exit_threshold := by linarith
    refine ⟨⟨le_min hge0 zero_le_one, min_le_right _ _⟩, ?_, ?_, ?_⟩
    · intro _
      simpa using min_eq_left hle1
    · intro hcontra
      simp at hcontra
    · intro hcontra
      simp at hcontra
  · have hzneg : zscore < 0 := lt_of_lt_of_le h3 (by linarith)
    have habs : entry_threshold < |zscore| := by
      rw [abs_of_neg hzneg]; linarith
    have hge0 : 0 ≤ (|zscore| - entry_threshold) / entry_threshold :=
      div_nonneg (by linarith) hentry.le
    exact ⟨⟨le_min hge0 zero_le_one, min_le_right _ _⟩,
      fun hcontra => by simp at hcontra, fun _ => rfl,
      fun hcontra => by simp at hcontra⟩
  · have habs : entry_threshold < |zscore| := by
      rw [abs_of_pos (lt_trans hentry h4)]; exact h4
    have hge0 : 0 ≤ (|zscore| - entry_threshold) / entry_threshold :=
      div_nonneg (by linarith) hentry.le
    exact ⟨⟨le_min hge0 zero_le_one, min_le_right _ _⟩,
      fun hcontra => by simp at hcontra, fun _ => rfl,
      fun hcontra => by simp at hcontra⟩
  · exact ⟨⟨by simp, by simp⟩,
      fun hcontra => by simp at hcontra,
      fun hcontra => by simp at hcontra, fun _ => by simp⟩
  · exact ⟨⟨by simp, by simp⟩,
      fun hcontra => by simp at hcontra,
      fun hcontra => by simp at hcontra, fun _ => by simp⟩

/-- Witness for C6 at thresholds 2 and 1/2, deviation 0, no open
position (the generator HOLDs with confidence 0). -/
theorem C6_confidence_bounds_witness :
    (0 ≤ (generate_signal 2 (1 / 2) 0 false).confidence
      ∧ (generate_signal 2 (1 / 2) 0 false).confidence ≤ 1)
    ∧ ((generate_signal 2 (1 / 2) 0 false).signal = Signal.CLOSE →
        (generate_signal 2 (1 / 2) 0 false).confidence = 1 - |(0 : ℚ)| / (1 / 2))
    ∧ (((generate_signal 2 (1 / 2) 0 false).signal = Signal.BUY
        ∨ (generate_signal 2 (1 / 2) 0 false).signal = Signal.SELL) →
        (generate_signal 2 (1 / 2) 0 false).confidence = min ((|(0 : ℚ)| - 2) / 2) 1)
    ∧ ((generate_signal 2 (1 / 2) 0 false).signal = Signal.HOLD →
        (generate_signal 2 (1 / 2) 0 false).confidence = 0) :=
  C6_confidence_bounds 2 (1 / 2) 0 false (by norm_num)

/-- A `filterMap` drops strictly below the source length as soon as one
element of the source is mapped to `none`. -/
lemma filterMap_length_lt {α β : Type} (f : α → Option β) (l : List α) (a : α)
    (ha : a ∈ l) (hf : f a = none) : (l.filterMap f).length < l.length := by
  induction l with
  | nil => cases ha
  | cons b rest ih =>
    rcases List.mem_cons.mp ha with rfl | hmem
    · rw [List.filterMap_cons, hf]
      exact Nat.lt_succ_of_le (List.length_filterMap_le _ _)
    · cases hfb : f b with
      | none =>
          rw [List.filterMap_cons, hfb]
          exact Nat.lt_succ_of_lt (ih hmem)
      | some v =>
          rw [List.filterMap_cons, hfb]
          simpa using Nat.succ_lt_succ (ih hmem)

/-- C8: when the stationarity test cannot run, `test_cointegration`
reports not-cointegrated with the failure reason and leaves the numeric
fields unset, and `_process_pair` leaves the whole engine state
untouched — the pair is untraded that day, the simulation continues. -/
theorem C8_adf_failure_untraded (ext : Externals)
    (hfail : ∀ s, ext.adfuller s = none)
    (min_pvalue : ℚ) (price1 price2 : List ℚ) (lookback : ℕ)
    (cfg : Config) (pd : PriceData) (pair1 pair2 : Asset) (d : Date)
    (cp : List (Asset × ℚ)) (st : BtState) :
    ((test_cointegration ext min_pvalue price1 price2 lookback).cointegrated = false
      ∧ (test_cointegration ext min_pvalue price1 price2 lookback).error
          = some ("ADF test failed")
      ∧ (test_cointegration ext min_pvalue price1 price2 lookback).adf_pvalue = none
      ∧ (test_cointegration ext min_pvalue price1 price2 lookback).spread_mean = none
      ∧ (test_cointegration ext min_pvalue price1 price2 lookback).spread_std = none)
    ∧ process_pair cfg ext pd pair1 pair2 d cp st = st := by
  have hc : ∀ (mp : ℚ) (a b : List ℚ) (lb : ℕ),
      (test_cointegration ext mp a b lb).cointegrated = false := by
    intro mp a b lb
    simp [test_cointegration, adf_test, hfail]
  refine ⟨⟨hc min_pvalue price1 price2 lookback, ?_, ?_, ?_, ?_⟩, ?_⟩
  · simp [test_cointegration, adf_test, hfail]
  · simp [test_cointegration, adf_test, hfail]
  · simp [test_cointegration, adf_test, hfail]
  · simp [test_cointegration, adf_test, hfail]
  · by_cases hlen : (historyUpTo pd pair1 d).length < 252
        ∨ (historyUpTo pd pair2 d).length < 252
    · simp [process_pair, hlen]
    · simp [process_pair, hlen, hc]

/-- Witness for C8 with an `adfuller` that always fails. -/
theorem C8_adf_failure_untraded_witness :
    ((test_cointegration extFailing (5 / 100) [1] [1] 252).cointegrated = false
      ∧ (test_cointegration extFailing (5 / 100) [1] [1] 252).error
          = some ("ADF test failed")
      ∧ (test_cointegration extFailing (5 / 100) [1] [1] 252).adf_pvalue = none
      ∧ (test_cointegration extFailing (5 / 100) [1] [1] 252).spread_mean = none
      ∧ (test_cointegration extFailing (5 / 100) [1] [1] 252).spread_std = none)
    ∧ process_pair cfgZero extFailing pdZero "A" "A" 0 [] (initState cfgZero)
        = initState cfgZero :=
  C8_adf_failure_untraded extFailing (fun _ => rfl) (5 / 100) [1] [1] 252
    cfgZero pdZero "A" "A" 0 [] (initState cfgZero)

/-- C10: a date in the common date set at which some configured asset's
close price is recorded as 0 is skipped whole by `run`'s date loop: no
pair is processed and no equity-curve sample is appended, because the
per-date price lookup treats a price of 0 as missing. -/
theorem C10_zero_price_skips_date (cfg : Config) (ext : Externals)
    (pd : PriceData) (st : BtState) (d : Date) (a : Asset)
    (ha : a ∈ cfg.pairs) (hz : get_price_at_date pd a d = some 0) :
    runStep cfg ext pd st d = st := by
  have hlt : (currentPrices cfg pd d).length < cfg.pairs.length := by
    unfold currentPrices
    refine filterMap_length_lt _ _ a ha ?_
    simp [hz]
  simp [runStep, hlt]

/-- Witness for C10: the second date of `pdZero` carries a close of 0
and the engine state passes through it unchanged. -/
theorem C10_zero_price_skips_date_witness :
    runStep cfgZero extFailing pdZero (initState cfgZero) 1 = initState cfgZero :=
  C10_zero_price_skips_date cfgZero extFailing pdZero (initState cfgZero) 1 "A"
    (by simp [cfgZero]) (by rfl)

section DictLemmas

variable {K V : Type} [DecidableEq K]

lemma keysNodup_dictInsert (l : List (K × V)) (k : K) (v : V)
    (h : keysNodup l) : keysNodup (dictInsert l k v) := by
  unfold dictInsert
  by_cases hc : dictContains l k
  · rw [if_pos hc]
    have hmap : (l.map (fun p => if p.1 = k then (k, v) else p)).map Prod.fst
        = l.map Prod.fst := by
      rw [List.map_map]
      refine List.map_congr_left ?_
      intro p _
      by_cases hpk : p.1 = k
      · simp [hpk]
      · simp [hpk]
    unfold keysNodup at h ⊢
    rw [hmap]
    exact h
  · rw [if_neg hc]
    have hk : k ∉ l.map Prod.fst := by
      intro hk
      rcases List.mem_map.mp hk with ⟨p, hp, hpk⟩
      exact hc (List.any_eq_true.mpr ⟨p, hp, by simp [hpk]⟩)
    unfold keysNodup at h ⊢
    rw [List.map_append, List.nodup_append]
    refine ⟨h, by simp, ?_⟩
    intro x hx hxk
    simp only [List.map_cons, List.map_nil, List.mem_singleton] at hxk
    subst hxk
    exact hk hx

lemma keysNodup_dictErase (l : List (K × V)) (k : K)
    (h : keysNodup l) : keysNodup (dictErase l k) := by
  unfold keysNodup at h ⊢
  exact h.sublist ((List.filter_sublist l).map Prod.fst)

end DictLemmas

lemma keysNodup_open_trade (cfg : Config) (pair1 pair2 : Asset) (side : Side)
    (d : Date) (spread hr : ℚ) (st : BtState)
    (h : keysNodup st.open_positions) :
    keysNodup (open_trade cfg pair1 pair2 side d spread hr st).open_positions := by
  simpa [open_trade] using keysNodup_dictInsert st.open_positions (pair1, pair2) _ h

lemma keysNodup_close_trade (cfg : Config) (pair1 pair2 : Asset) (d : Date)
    (xs : ℚ) (st : BtState) (h : keysNodup st.open_positions) :
    keysNodup (close_trade cfg pair1 pair2 d xs st).open_positions := by
  simp only [close_trade]
  cases hl : dictLookup st.open_positions (pair1, pair2) with
  | none => simpa [hl] using h
  | some t => simpa [hl] using keysNodup_dictErase st.open_positions (pair1, pair2) h

lemma keysNodup_executeSignal (cfg : Config) (pair1 pair2 : Asset) (d : Date)
    (cs hr : ℚ) (pos : Option Trade) (sig : Signal) (st : BtState)
    (h : keysNodup st.open_positions) :
    keysNodup (executeSignal cfg pair1 pair2 d cs hr pos sig st).open_positions := by
  unfold executeSignal
  split_ifs with h1 h2 h3
  · exact keysNodup_open_trade _ _ _ _ _ _ _ _ h
  · exact keysNodup_open_trade _ _ _ _ _ _ _ _ h
  · exact keysNodup_close_trade _ _ _ _ _ _ h
  · exact h

lemma keysNodup_process_pair (cfg : Config) (ext : Externals) (pd : PriceData)
    (pair1 pair2 : Asset) (d : Date) (cp : List (Asset × ℚ)) (st : BtState)
    (h : keysNodup st.open_positions) :
    keysNodup (process_pair cfg ext pd pair1 pair2 d cp st).open_positions := by
  simp only [process_pair]
  split_ifs with h1 h2
  · exact h
  · exact h
  · exact keysNodup_executeSignal _ _ _ _ _ _ _ _ _ h

lemma keysNodup_foldl_process (cfg : Config) (ext : Externals) (pd : PriceData)
    (d : Date) (cp : List (Asset × ℚ)) :
    ∀ (ps : List (Asset × Asset)) (st : BtState), keysNodup st.open_positions →
      keysNodup ((ps.foldl
        (fun s pq => process_pair cfg ext pd pq.1 pq.2 d cp s) st).open_positions) := by
  intro ps
  induction ps with
  | nil => intro st h; exact h
  | cons p rest ih =>
      intro st h
      exact ih _ (keysNodup_process_pair _ _ _ _ _ _ _ _ h)

lemma keysNodup_runStep (cfg : Config) (ext : Externals) (pd : PriceData)
    (st : BtState) (d : Date) (h : keysNodup st.open_positions) :
    keysNodup (runStep cfg ext pd st d).open_positions := by
  simp only [runStep]
  split_ifs with hc
  · exact h
  · simpa using keysNodup_foldl_process cfg ext pd d _ _ st h

lemma keysNodup_foldl_runStep (cfg : Config) (ext : Externals) (pd : PriceData) :
    ∀ (dates : List Date) (st : BtState), keysNodup st.open_positions →
      keysNodup ((dates.foldl (runStep cfg ext pd) st).open_positions) := by
  intro dates
  induction dates with
  | nil => intro st h; exact h
  | cons d rest ih =>
      intro st h
      exact ih _ (keysNodup_runStep _ _ _ _ _ h)

/-- C1: every reachable engine state keys its open-positions table
uniquely (at most one open Position per PairKey), and the signal
dispatch of `_process_pair` is a no-op for a pair whenever the signal
does not match that pair's current state: BUY/SELL with a position
already open, CLOSE with none open, and HOLD always, leave the state
unchanged. -/
theorem C1_at_most_one_position :
    (∀ (cfg : Config) (ext : Externals) (pd : PriceData) (n : ℕ),
      keysNodup (runUpTo cfg ext pd n).open_positions)
    ∧ (∀ (cfg : Config) (pair1 pair2 : Asset) (d : Date) (cs hr : ℚ)
        (sig : Signal) (st : BtState),
        ((sig = Signal.BUY ∨ sig = Signal.SELL) →
          (dictLookup st.open_positions (pair1, pair2)).isSome = true →
          executeSignal cfg pair1 pair2 d cs hr
            (dictLookup st.open_positions (pair1, pair2)) sig st = st)
        ∧ (sig = Signal.CLOSE →
          dictLookup st.open_positions (pair1, pair2) = none →
          executeSignal cfg pair1 pair2 d cs hr
            (dictLookup st.open_positions (pair1, pair2)) sig st = st)
        ∧ (sig = Signal.HOLD → ∀ pos : Option Trade,
          executeSignal cfg pair1 pair2 d cs hr pos sig st = st)) := by
  constructor
  · intro cfg ext pd n
    exact keysNodup_foldl_runStep cfg ext pd _ (initState cfg) (by simp [keysNodup, initState])
  · intro cfg pair1 pair2 d cs hr sig st
    refine ⟨?_, ?_, ?_⟩
    · intro hsig hsome
      cases hop : dictLookup st.open_positions (pair1, pair2) with
      | none => rw [hop] at hsome; simp at hsome
      | some t =>
          rcases hsig with rfl | rfl <;> simp [executeSignal]
    · intro hsig hnone
      subst hsig
      rw [hnone]
      simp [executeSignal]
    · intro hsig pos
      subst hsig
      simp [executeSignal]

/-- Witness for C1: the invariant holds after running both dates of a
concrete input, and a BUY signal on a pair that already holds a position
is a no-op. -/
theorem C1_at_most_one_position_witness :
    keysNodup (runUpTo cfgZero extFailing pdZero 2).open_positions
    ∧ executeSignal cfgZero "A" "B" 0 1 1
        (dictLookup stOnePos.open_positions ("A", "B")) Signal.BUY stOnePos
        = stOnePos :=
  ⟨C1_at_most_one_position.1 cfgZero extFailing pdZero 2,
    (C1_at_most_one_position.2 cfgZero "A" "B" 0 1 1 Signal.BUY stOnePos).1
      (Or.inl rfl) (by rfl)⟩

lemma capitalInvariant_open_trade (c : ℚ) (cfg : Config) (pair1 pair2 : Asset)
    (side : Side) (d : Date) (spread hr : ℚ) (st : BtState)
    (h : capitalInvariant c st) :
    capitalInvariant c (open_trade cfg pair1 pair2 side d spread hr st) := by
  simpa [capitalInvariant, open_trade] using h

lemma capitalInvariant_close_trade (c : ℚ) (cfg : Config) (pair1 pair2 : Asset)
    (d : Date) (xs : ℚ) (st : BtState) (h : capitalInvariant c st) :
    capitalInvariant c (close_trade cfg pair1 pair2 d xs st) := by
  simp only [close_trade]
  cases hl : dictLookup st.open_positions (pair1, pair2) with
  | none => simpa [hl] using h
  | some t =>
      unfold capitalInvariant sumNet at h ⊢
      simp only [hl]
      simp [List.map_append, List.sum_append, h]
      ring

lemma capitalInvariant_executeSignal (c : ℚ) (cfg : Config)
    (pair1 pair2 : Asset) (d : Date) (cs hr : ℚ) (pos : Option Trade)
    (sig : Signal) (st : BtState) (h : capitalInvariant c st) :
    capitalInvariant c (executeSignal cfg pair1 pair2 d cs hr pos sig st) := by
  unfold executeSignal
  split_ifs with h1 h2 h3
  · exact capitalInvariant_open_trade _ _ _ _ _ _ _ _ _ h
  · exact capitalInvariant_open_trade _ _ _ _ _ _ _ _ _ h
  · exact capitalInvariant_close_trade _ _ _ _ _ _ _ h
  · exact h

lemma capitalInvariant_process_pair (c : ℚ) (cfg : Config) (ext : Externals)
    (pd : PriceData) (pair1 pair2 : Asset) (d : Date) (cp : List (Asset × ℚ))
    (st : BtState) (h : capitalInvariant c st) :
    capitalInvariant c (process_pair cfg ext pd pair1 pair2 d cp st) := by
  simp only [process_pair]
  split_ifs with h1 h2
  · exact h
  · exact h
  · exact capitalInvariant_executeSignal _ _ _ _ _ _ _ _ _ _ h

lemma capitalInvariant_foldl_process (c : ℚ) (cfg : Config) (ext : Externals)
    (pd : PriceData) (d : Date) (cp : List (Asset × ℚ)) :
    ∀ (ps : List (Asset × Asset)) (st : BtState), capitalInvariant c st →
      capitalInvariant c (ps.foldl
        (fun s pq => process_pair cfg ext pd pq.1 pq.2 d cp s) st) := by
  intro ps
  induction ps with
  | nil => intro st h; exact h
  | cons p rest ih =>
      intro st h
      exact ih _ (capitalInvariant_process_pair _ _ _ _ _ _ _ _ _ h)

lemma capitalInvariant_runStep (c : ℚ) (cfg : Config) (ext : Externals)
    (pd : PriceData) (st : BtState) (d : Date) (h : capitalInvariant c st) :
    capitalInvariant c (runStep cfg ext pd st d) := by
  simp only [runStep]
  split_ifs with hc
  · exact h
  · have := capitalInvariant_foldl_process c cfg ext pd d
      (currentPrices cfg pd d) (orderedPairs cfg.pairs) st h
    simpa [capitalInvariant] using this

lemma capitalInvariant_foldl_runStep (c : ℚ) (cfg : Config) (ext : Externals)
    (pd : PriceData) :
    ∀ (dates : List Date) (st : BtState), capitalInvariant c st →
      capitalInvariant c (dates.foldl (runStep cfg ext pd) st) := by
  intro dates
  induction dates with
  | nil => intro st h; exact h
  | cons d rest ih =>
      intro st h
      exact ih _ (capitalInvariant_runStep _ _ _ _ _ _ h)

/-- C2: capital changes only when a trade closes, by exactly that
trade's net P&L: the invariant "current capital = starting capital plus
the sum of net P&L over closed trades" is preserved by every pair
processed and holds at every date of `run()`. -/
theorem C2_capital_accounting :
    (∀ (c : ℚ) (cfg : Config) (ext : Externals) (pd : PriceData)
        (pair1 pair2 : Asset) (d : Date) (cp : List (Asset × ℚ)) (st : BtState),
      capitalInvariant c st →
      capitalInvariant c (process_pair cfg ext pd pair1 pair2 d cp st))
    ∧ (∀ (cfg : Config) (ext : Externals) (pd : PriceData) (n : ℕ),
      capitalInvariant cfg.starting_capital (runUpTo cfg ext pd n)) := by
  constructor
  · intro c cfg ext pd pair1 pair2 d cp st h
    exact capitalInvariant_process_pair c cfg ext pd pair1 pair2 d cp st h
  · intro cfg ext pd n
    exact capitalInvariant_foldl_runStep cfg.starting_capital cfg ext pd _
      (initState cfg) (by simp [capitalInvariant, initState, sumNet])

/-- Witness for C2 at a concrete state satisfying the invariant. -/
theorem C2_capital_accounting_witness :
    capitalInvariant 1000
      (process_pair cfgZero extFailing pdZero "A" "A" 0 [] (initState cfgZero)) :=
  C2_capital_accounting.1 1000 cfgZero extFailing pdZero "A" "A" 0 []
    (initState cfgZero) (by simp [capitalInvariant, initState, sumNet, cfgZero])

lemma equity_open_trade (cfg : Config) (pair1 pair2 : Asset) (side : Side)
    (d : Date) (spread hr : ℚ) (st : BtState) :
    (open_trade cfg pair1 pair2 side d spread hr st).equity_curve
      = st.equity_curve := by
  simp [open_trade]

lemma equity_close_trade (cfg : Config) (pair1 pair2 : Asset) (d : Date)
    (xs : ℚ) (st : BtState) :
    (close_trade cfg pair1 pair2 d xs st).equity_curve = st.equity_curve := by
  simp only [close_trade]
  cases hl : dictLookup st.open_positions (pair1, pair2) with
  | none => simp [hl]
  | some t => simp [hl]

lemma equity_executeSignal (cfg : Config) (pair1 pair2 : Asset) (d : Date)
    (cs hr : ℚ) (pos : Option Trade) (sig : Signal) (st : BtState) :
    (executeSignal cfg pair1 pair2 d cs hr pos sig st).equity_curve
      = st.equity_curve := by
  unfold executeSignal
  split_ifs with h1 h2 h3
  · exact equity_open_trade _ _ _ _ _ _ _ _
  · exact equity_open_trade _ _ _ _ _ _ _ _
  · exact equity_close_trade _ _ _ _ _ _
  · rfl

lemma equity_process_pair (cfg : Config) (ext : Externals) (pd : PriceData)
    (pair1 pair2 : Asset) (d : Date) (cp : List (Asset × ℚ)) (st : BtState) :
    (process_pair cfg ext pd pair1 pair2 d cp st).equity_curve
      = st.equity_curve := by
  simp only [process_pair]
  split_ifs with h1 h2
  · rfl
  · rfl
  · exact equity_executeSignal _ _ _ _ _ _ _ _ _

lemma equity_foldl_process (cfg : Config) (ext : Externals) (pd : PriceData)
    (d : Date) (cp : List (Asset × ℚ)) :
    ∀ (ps : List (Asset × Asset)) (st : BtState),
      (ps.foldl (fun s pq => process_pair cfg ext pd pq.1 pq.2 d cp s)
        st).equity_curve = st.equity_curve := by
  intro ps
  induction ps with
  | nil => intro st; rfl
  | cons p rest ih =>
      intro st
      rw [List.foldl_cons, ih, equity_process_pair]

lemma equity_runStep (cfg : Config) (ext : Externals) (pd : PriceData)
    (st : BtState) (d : Date) :
    (runStep cfg ext pd st d).equity_curve.map Prod.fst
      = st.equity_curve.map Prod.fst
        ++ (if dateHasAllPrices cfg pd d = true then [d] else []) := by
  simp only [runStep]
  by_cases hc : (currentPrices cfg pd d).length < cfg.pairs.length
  · have hfalse : ¬ dateHasAllPrices cfg pd d = true := by
      simp [dateHasAllPrices, hc]
    rw [if_pos hc, if_neg hfalse, List.append_nil]
  · have htrue : dateHasAllPrices cfg pd d = true := by
      simp [dateHasAllPrices, hc]
    rw [if_neg hc, if_pos htrue]
    simp [equity_foldl_process, List.map_append]

lemma equity_foldl_runStep (cfg : Config) (ext : Externals) (pd : PriceData) :
    ∀ (dates : List Date) (st : BtState),
      ((dates.foldl (runStep cfg ext pd) st).equity_curve).map Prod.fst
        = st.equity_curve.map Prod.fst
          ++ dates.filter (fun d => dateHasAllPrices cfg pd d) := by
  intro dates
  induction dates with
  | nil => intro st; simp
  | cons d rest ih =>
      intro st
      rw [List.foldl_cons, ih, equity_runStep, List.filter_cons]
      by_cases hd : dateHasAllPrices cfg pd d = true
      · simp [hd]
      · simp [hd]

/-- C3 amended: `run()` appends exactly one equity-curve sample per
simulated date that passes the per-date price check (every configured
asset has a truthy close that day); a common date at which any price is
missing or 0 is skipped whole, so the equity dates are the filtered
common dates, in order. -/
theorem C3_equity_curve_dates (cfg : Config) (ext : Externals) (pd : PriceData) :
    (run cfg ext pd).equity_curve.map Prod.fst
      = (get_common_dates pd).filter (fun d => dateHasAllPrices cfg pd d) := by
  unfold run
  simpa [initState] using
    equity_foldl_runStep cfg ext pd (get_common_dates pd) (initState cfg)

/-- C3 as stated is false: on `pdZero` the common date set has two dates
but the close price 0 at the second date makes `run` skip it without an
equity sample, so the equity curve is shorter than the simulated date
set. -/
theorem C3_counterexample :
    ¬ ((run cfgZero extFailing pdZero).equity_curve.length
        = (get_common_dates pdZero).length) := by
  decide

end StatArb
